import Mathlib

/-!
Verification of the stream-attachment and lifecycle-coordination subsystem of
the morbyd container test-helper library: a shallow embedding of
`container_run.go` (Session.Run), `container.go` (Container.PID, Container.Wait),
the exec session file (Container.Exec, ExecSession.PID, ExecSession.Wait) and
the cancellable sleep helper, together with small-step models of the two
stream-pump goroutine configurations spawned by Run and Exec.
-/

namespace Morbyd

/-- Go error values as this library builds them: `errors.New`-style leaf
messages and `fmt.Errorf("...: %w", cause)`-style wrapping. -/
inductive GoError where
  | msg (s : String) : GoError
  | wrap (s : String) (cause : GoError) : GoError
deriving DecidableEq, Repr

/-- `errors.Is`: the target is the error itself or somewhere down its wrap
chain. -/
def GoError.is : GoError → GoError → Bool
  | .msg s, t => GoError.msg s == t
  | .wrap s c, t => GoError.wrap s c == t || c.is t

/-- `AbbreviatedIDLength` from `container.go`. -/
def AbbreviatedIDLength : Nat := 10

/-- Identity of a container as used in error messages. -/
structure ContainerRef where
  name : String
  id : String
deriving DecidableEq, Repr

/-- `Container.AbbreviatedID` from `container.go`. -/
def ContainerRef.abbreviatedID (c : ContainerRef) : String :=
  if c.id.length ≤ AbbreviatedIDLength then c.id else c.id.take AbbreviatedIDLength

/-- `DefaultSleep = 10 * time.Millisecond`, in milliseconds. -/
def DefaultSleep : Nat := 10

/-- `Sleep(ctx, d)`: sleeps `d`, returning the context error when the context
is cancelled during the nap, `ok` otherwise. `cancel` says whether (and with
which error) the context is done during this nap. -/
def Sleep (cancel : Option GoError) (_d : Nat) : Except GoError Unit :=
  match cancel with
  | some e => .error e
  | none => .ok ()

/-- The fields of `types.ContainerState` consulted by `Container.PID`. -/
structure ContainerState where
  pid : Int
  running : Bool
  dead : Bool
  oomKilled : Bool
  restarting : Bool
  status : String
deriving DecidableEq, Repr

/-- The fields of `types.ContainerJSON` consulted by Run and PID; `state` is a
pointer in Go, hence optional. -/
structure ContainerJSON where
  name : String
  state : Option ContainerState
deriving DecidableEq, Repr

/-- Result of one polling run: final result, how many engine inspect calls were
made, and the durations of the naps taken between retries. -/
structure PollOut (α : Type) where
  result : Except GoError α
  inspects : Nat
  naps : List Nat
deriving Repr

/-- Error-message prefix of `Container.PID`. -/
def pidReasonMsg (c : ContainerRef) : String :=
  "cannot determine PID of container " ++ c.name ++ "/" ++ c.abbreviatedID ++ ", reason"

/-- Error message of `Container.PID` for a terminal, non-restartable state. -/
def pidStateMsg (c : ContainerRef) (status : String) : String :=
  "cannot determine PID of container " ++ c.name ++ "/" ++ c.abbreviatedID ++
    " in state " ++ status

/-- `Container.PID` from `container.go`, its engine inspect calls scripted by a
response list; `cancel k` is whether the caller context is found cancelled
during the k-th nap. Each loop iteration: inspect (API error is wrapped and
returned); a state with non-zero PID is returned; a dead-or-OOM-killed and
not-restarting state is a terminal error; otherwise `Sleep DefaultSleep` and
retry (a cancelled sleep returns the context error wrapped). An exhausted
script is flagged by a sentinel error that the real loop can never produce. -/
def containerPID (c : ContainerRef) :
    List (Except GoError ContainerJSON) → (Nat → Option GoError) → Nat → PollOut Int
  | [], _, _ => ⟨.error (.msg "scripted engine ran out of responses"), 0, []⟩
  | r :: rest, cancel, k =>
    match r with
    | .error e => ⟨.error (.wrap (pidReasonMsg c) e), 1, []⟩
    | .ok insp =>
      match insp.state with
      | some st =>
        if st.pid ≠ 0 then ⟨.ok st.pid, 1, []⟩
        else if (st.dead || st.oomKilled) && !st.restarting then
          ⟨.error (.msg (pidStateMsg c st.status)), 1, []⟩
        else
          match Sleep (cancel k) DefaultSleep with
          | .error e => ⟨.error (.wrap (pidReasonMsg c) e), 1, [DefaultSleep]⟩
          | .ok _ =>
            let o := containerPID c rest cancel (k + 1)
            ⟨o.result, o.inspects + 1, DefaultSleep :: o.naps⟩
      | none =>
        match Sleep (cancel k) DefaultSleep with
        | .error e => ⟨.error (.wrap (pidReasonMsg c) e), 1, [DefaultSleep]⟩
        | .ok _ =>
          let o := containerPID c rest cancel (k + 1)
          ⟨o.result, o.inspects + 1, DefaultSleep :: o.naps⟩

/-- The fields of `container.ExecInspect` consulted by `ExecSession.PID` and
`ExecSession.Wait`. -/
structure ExecInspect where
  running : Bool
  pid : Int
  exitCode : Int
deriving DecidableEq, Repr

/-- `ExecSession.PID`, its engine exec-inspect calls scripted by a response
list; `doneAt k` is whether the session's `done` channel is observed closed at
the k-th iteration's select, `cancel k` whether the context is cancelled during
the k-th nap. Each iteration: inspect (API error wrapped and returned);
`Running` with non-zero PID is returned; a closed `done` channel is the
"command has already terminated" error; otherwise `Sleep DefaultSleep` (a
cancelled sleep returns the context error verbatim) and retry. -/
def execPID :
    List (Except GoError ExecInspect) → (Nat → Bool) → (Nat → Option GoError) → Nat →
      PollOut Int
  | [], _, _, _ => ⟨.error (.msg "scripted engine ran out of responses"), 0, []⟩
  | r :: rest, doneAt, cancel, k =>
    match r with
    | .error e =>
      ⟨.error (.wrap "cannot determine the PID of the excuting command, reason" e), 1, []⟩
    | .ok insp =>
      if insp.running && insp.pid != 0 then ⟨.ok insp.pid, 1, []⟩
      else if doneAt k then ⟨.error (.msg "command has already terminated"), 1, []⟩
      else
        match Sleep (cancel k) DefaultSleep with
        | .error e => ⟨.error e, 1, [DefaultSleep]⟩
        | .ok _ =>
          let o := execPID rest doneAt cancel (k + 1)
          ⟨o.result, o.inspects + 1, DefaultSleep :: o.naps⟩

/-- Result of `ExecSession.Wait`: the returned exit code and error, plus how
many exec-inspect calls were made. -/
structure WaitOut where
  exitCode : Int
  err : Option GoError
  inspects : Nat
deriving DecidableEq, Repr

/-- Which branch a Go `select` takes when several are ready. -/
inductive SelectPick where
  | ctxBranch
  | doneBranch
deriving DecidableEq, Repr

/-- The post-select part of `ExecSession.Wait`: one exec-inspect, whose failure
is wrapped; a still-`Running` report is the internal-consistency error with
exit code 0; otherwise the reported exit code. -/
def execWaitFetch (insp : Except GoError ExecInspect) : WaitOut :=
  match insp with
  | .error e =>
    ⟨0, some (.wrap "error fetching result code of executed command, reason" e), 1⟩
  | .ok i =>
    if i.running then
      ⟨0, some (.msg "command execution still alive when it should not"), 1⟩
    else ⟨i.exitCode, none, 1⟩

/-- `ExecSession.Wait`: a select over the caller context and the session's
`done` channel (`pick` resolves the race when both are ready; `none` models
Wait still blocked when neither is), then the final exit-code fetch. -/
def execWait (ctxErr : Option GoError) (doneClosed : Bool) (pick : SelectPick)
    (insp : Except GoError ExecInspect) : Option WaitOut :=
  match ctxErr, doneClosed with
  | none, false => none
  | some e, false => some ⟨0, some e, 0⟩
  | none, true => some (execWaitFetch insp)
  | some e, true =>
    match pick with
    | .ctxBranch => some ⟨0, some e, 0⟩
    | .doneBranch => some (execWaitFetch insp)

/-- Which of `Container.Wait`'s two engine channels fires (exactly one does). -/
inductive ContainerWaitEvent where
  | errch (e : GoError)
  | waitch
deriving DecidableEq, Repr

/-- `Container.Wait` from `container.go`: an error from the engine's error
channel is wrapped with the container identity; a wait response is success. -/
def containerWait (c : ContainerRef) (ev : ContainerWaitEvent) : Option GoError :=
  match ev with
  | .errch e =>
    some (.wrap ("waiting for container " ++ c.name ++ "/" ++ c.abbreviatedID ++
      " to finish failed, reason") e)
  | .waitch => none

/-- The engine API calls that Run and Exec issue, in issue order. -/
inductive EngineCall where
  | imageList
  | imagePull
  | containerCreate
  | containerAttach (withStdin : Bool)
  | containerStart
  | containerInspect
  | containerRemove (force : Bool)
  | containerExecCreate
  | containerExecAttach
deriving DecidableEq, Repr

/-- Run options after the option-function loop has resolved them. -/
structure RunOptsResolved where
  hasInput : Bool
  tty : Bool
  name : String
deriving DecidableEq, Repr

/-- Scripted engine responses for one `Session.Run` call. `create` yields the
new container ID; `removeOk` is whether the best-effort forced removal of the
deferred cleanup actually deletes the container. -/
structure RunScript where
  opts : Except GoError RunOptsResolved
  hasImage : Except GoError Bool
  pullImage : Except GoError Unit
  create : Except GoError String
  attach : Except GoError Unit
  start : Except GoError Unit
  inspect : Except GoError ContainerJSON
  removeOk : Bool
deriving Repr

/-- Outcome of a Go call that can also panic. -/
inductive Outcome (α : Type) where
  | panic
  | fail (e : GoError)
  | ok (v : α)
deriving DecidableEq, Repr

/-- The `Container` value built on Run's success path. -/
structure RunContainer where
  name : String
  id : String
deriving DecidableEq, Repr

/-- What a `Session.Run` call leaves behind: its outcome, the engine's
container set afterwards, and the engine calls issued. -/
structure RunOut where
  outcome : Outcome RunContainer
  containers : List String
  calls : List EngineCall
deriving DecidableEq, Repr

/-- Forced container removal on the engine: deletes the container when the
removal succeeds, leaves it when the removal itself fails (best effort). -/
def removeForce (cs : List String) (id : String) (ok : Bool) : List String :=
  if ok then cs.filter (· ≠ id) else cs

/-- Go string slicing `s[i:]`: in bounds only for `i ≤ len(s)`, otherwise a
panic. -/
def goSliceFrom (s : String) (i : Nat) : Option String :=
  if i ≤ s.length then some (s.drop i) else none

/-- `Session.Run` from `container_run.go` over a scripted engine, starting from
container set `cs`: resolve options, check/pull the image, create, then — with
a deferred forced removal armed for every error return — attach, spawn the
pump, start, inspect, and build the `Container` with the leading slash sliced
off the reported name. A panic in the name slicing escapes with `err` still
nil, so the deferred removal does not fire on it. -/
def sessionRun (scr : RunScript) (cs : List String) : RunOut :=
  match scr.opts with
  | .error e => ⟨.fail e, cs, []⟩
  | .ok o =>
    match scr.hasImage with
    | .error e => ⟨.fail (.wrap "cannot run image, reason" e), cs, [.imageList]⟩
    | .ok has =>
      let pulled : Except GoError (List EngineCall) :=
        if has then .ok [.imageList]
        else
          match scr.pullImage with
          | .error e => .error (.wrap "cannot pull image, reason" e)
          | .ok _ => .ok [.imageList, .imagePull]
      match pulled with
      | .error e => ⟨.fail e, cs, [.imageList, .imagePull]⟩
      | .ok calls₀ =>
        match scr.create with
        | .error e =>
          ⟨.fail (.wrap "cannot create container, reason" e), cs,
            calls₀ ++ [.containerCreate]⟩
        | .ok id =>
          -- the container now exists engine-side; the deferred cleanup is armed.
          let cs₁ := id :: cs
          let calls₁ := calls₀ ++ [.containerCreate]
          match scr.attach with
          | .error e =>
            ⟨.fail (.wrap "cannot attach to container, reason" e),
              removeForce cs₁ id scr.removeOk, calls₁ ++
                [.containerAttach o.hasInput, .containerRemove true]⟩
          | .ok _ =>
            let calls₂ := calls₁ ++ [.containerAttach o.hasInput]
            match scr.start with
            | .error e =>
              ⟨.fail (.wrap "cannot start container, reason" e),
                removeForce cs₁ id scr.removeOk, calls₂ ++
                  [.containerStart, .containerRemove true]⟩
            | .ok _ =>
              match scr.inspect with
              | .error e =>
                ⟨.fail (.wrap "cannot inspect newly started container, reason" e),
                  removeForce cs₁ id scr.removeOk, calls₂ ++
                    [.containerStart, .containerInspect, .containerRemove true]⟩
              | .ok details =>
                match goSliceFrom details.name 1 with
                | none =>
                  ⟨.panic, cs₁, calls₂ ++ [.containerStart, .containerInspect]⟩
                | some nm =>
                  ⟨.ok ⟨nm, id⟩, cs₁, calls₂ ++ [.containerStart, .containerInspect]⟩

/-- Exec options after the option-function loop has resolved them. -/
structure ExecOptsResolved where
  hasInput : Bool
  tty : Bool
deriving DecidableEq, Repr

/-- Scripted engine responses for one `Container.Exec` call. -/
structure ExecScript where
  opts : Except GoError ExecOptsResolved
  inspect : Except GoError ContainerJSON
  execCreate : Except GoError String
  execAttach : Except GoError Unit
deriving Repr

/-- The `ExecSession` value built on Exec's success path. -/
structure ExecSessionRef where
  id : String
  hasInput : Bool
deriving DecidableEq, Repr

/-- What a `Container.Exec` call produces: its outcome and the engine calls
issued. -/
structure ExecOut where
  outcome : Except GoError ExecSessionRef
  calls : List EngineCall
deriving Repr

/-- Error-message prefix of `Container.Exec` for inspect and exec-create
failures. -/
def execIntoMsg (c : ContainerRef) : String :=
  "cannot execute into container " ++ c.name ++ "/" ++ c.abbreviatedID ++ ", reason"

/-- `Container.Exec` from the exec session file: resolve options, then — per
the ordering borrowed from the Docker CLI — a dummy inspect of the target
container first, so that "not exist" errors surface before any exec context is
created engine-side; then exec-create, exec-attach (which implicitly starts the
command), and the pump spawn. -/
def containerExec (c : ContainerRef) (scr : ExecScript) : ExecOut :=
  match scr.opts with
  | .error e =>
    ⟨.error (.wrap ("cannot execute command in container " ++ c.name ++ "/" ++
      c.abbreviatedID ++ ", reason") e), []⟩
  | .ok o =>
    match scr.inspect with
    | .error e => ⟨.error (.wrap (execIntoMsg c) e), [.containerInspect]⟩
    | .ok _ =>
      match scr.execCreate with
      | .error e =>
        ⟨.error (.wrap (execIntoMsg c) e), [.containerInspect, .containerExecCreate]⟩
      | .ok execId =>
        match scr.execAttach with
        | .error e =>
          ⟨.error (.wrap ("cannot attach to exec session in container " ++ c.id ++
            "/" ++ c.abbreviatedID ++ ", reason") e),
            [.containerInspect, .containerExecCreate, .containerExecAttach]⟩
        | .ok _ =>
          ⟨.ok ⟨execId, o.hasInput⟩,
            [.containerInspect, .containerExecCreate, .containerExecAttach]⟩

/-! ## Stream pump, exec variant

Small-step model of the goroutines spawned by `Container.Exec` together with
the process/engine environment and a concurrent `ExecSession.Wait` caller: the
output-drain goroutine copies (demultiplexing stdout/stderr frames) until EOF,
then receives from `stdinDone`, then closes the hijacked connection, then
closes `allDone`; the optional input-drain goroutine closes `stdinDone` when
its copy ends (absent an input reader, `Exec` closes `stdinDone` itself before
returning); `Wait` selects over the caller context and `allDone` and then
performs the final exec-inspect. -/

/-- One frame of the multiplexed output stream: which stream it belongs to,
and its payload byte. -/
structure Frame where
  isErr : Bool
  byte : Nat
deriving DecidableEq, Repr

/-- The stdout bytes of a frame sequence, in order. -/
def stdoutOf (l : List Frame) : List Nat :=
  (l.filter (fun f => !f.isErr)).map (·.byte)

/-- The stderr bytes of a frame sequence, in order. -/
def stderrOf (l : List Frame) : List Nat :=
  (l.filter (fun f => f.isErr)).map (·.byte)

/-- Program counter of the output-drain goroutine in `Container.Exec`. -/
inductive OutPC where
  | copying
  | awaitingInputDone
  | closingConn
  | closingAllDone
  | finished
deriving DecidableEq, Repr

/-- Program counter of the input-drain goroutine. -/
inductive InPC where
  | running
  | finished
deriving DecidableEq, Repr

/-- Program counter of a concurrent `ExecSession.Wait` caller. -/
inductive WaitPC where
  | blocked
  | selected
  | returned
  | cancelled
deriving DecidableEq, Repr

/-- Shared state of the exec pump session: process/engine environment, the two
drain goroutines, the two one-shot channels, the hijacked connection, and the
`Wait` caller. -/
structure ExecPumpState where
  pending : List Frame
  buffered : List Frame
  exited : Bool
  outSink : List Nat
  errSink : List Nat
  outG : OutPC
  inG : Option InPC
  stdinDone : Bool
  connClosed : Bool
  allDone : Bool
  ctxDone : Bool
  waiter : WaitPC
deriving DecidableEq, Repr

/-- The state right after `Container.Exec` returns: the process will emit
`output`; the output-drain goroutine is copying; with an input reader the
input-drain goroutine runs and `stdinDone` is open, otherwise no input
goroutine is spawned and `Exec` has already closed `stdinDone`. -/
def execInit (output : List Frame) (withInput : Bool) : ExecPumpState :=
  { pending := output
    buffered := []
    exited := false
    outSink := []
    errSink := []
    outG := .copying
    inG := if withInput then some .running else none
    stdinDone := !withInput
    connClosed := false
    allDone := false
    ctxDone := false
    waiter := .blocked }

/-- Interleaving steps of the exec pump session. Channel receives unblock only
once the corresponding channel is closed; the output copy returns only at EOF,
which the engine delivers after the process exited and the connection buffer
drained. -/
inductive ExecStep : ExecPumpState → ExecPumpState → Prop where
  | emit : ∀ s f rest, s.pending = f :: rest →
      ExecStep s { s with pending := rest, buffered := s.buffered ++ [f] }
  | procExit : ∀ s, s.pending = [] → s.exited = false →
      ExecStep s { s with exited := true }
  | drainOut : ∀ s f rest, s.outG = .copying → s.buffered = f :: rest →
      f.isErr = false →
      ExecStep s { s with buffered := rest, outSink := s.outSink ++ [f.byte] }
  | drainErr : ∀ s f rest, s.outG = .copying → s.buffered = f :: rest →
      f.isErr = true →
      ExecStep s { s with buffered := rest, errSink := s.errSink ++ [f.byte] }
  | copyEOF : ∀ s, s.outG = .copying → s.exited = true → s.buffered = [] →
      ExecStep s { s with outG := .awaitingInputDone }
  | recvInputDone : ∀ s, s.outG = .awaitingInputDone → s.stdinDone = true →
      ExecStep s { s with outG := .closingConn }
  | closeConn : ∀ s, s.outG = .closingConn →
      ExecStep s { s with outG := .closingAllDone, connClosed := true }
  | closeAllDone : ∀ s, s.outG = .closingAllDone →
      ExecStep s { s with outG := .finished, allDone := true }
  | inputEnds : ∀ s, s.inG = some .running →
      ExecStep s { s with inG := some .finished, stdinDone := true }
  | ctxCancel : ∀ s, s.ctxDone = false →
      ExecStep s { s with ctxDone := true }
  | selectDone : ∀ s, s.waiter = .blocked → s.allDone = true →
      ExecStep s { s with waiter := .selected }
  | selectCtx : ∀ s, s.waiter = .blocked → s.ctxDone = true →
      ExecStep s { s with waiter := .cancelled }
  | waitInspect : ∀ s, s.waiter = .selected →
      ExecStep s { s with waiter := .returned }

/-- Reachability in the exec pump session. -/
def ExecReach (s t : ExecPumpState) : Prop := Relation.ReflTransGen ExecStep s t

/-! ## Stream pump, container variant

Small-step model of the goroutines spawned by `Session.Run` together with a
concurrent `Container.Wait` caller. The output-drain goroutine here receives
from the (stdin-)`done` channel and closes the connection, but there is no
`allDone` channel: nothing signals overall completion. `Container.Wait`
returns as soon as the engine's not-running notification fires, which it can
as soon as the process has exited — independent of the output drain. -/

/-- Program counter of the output-drain goroutine in `Session.Run`. -/
inductive ROutPC where
  | copying
  | awaitingInputDone
  | closingConn
  | finished
deriving DecidableEq, Repr

/-- Program counter of a concurrent `Container.Wait` caller. -/
inductive RWaitPC where
  | blocked
  | returned
deriving DecidableEq, Repr

/-- Shared state of the container-run pump session. -/
structure RunPumpState where
  pending : List Frame
  buffered : List Frame
  exited : Bool
  outSink : List Nat
  errSink : List Nat
  outG : ROutPC
  inG : Option InPC
  stdinDone : Bool
  connClosed : Bool
  waiter : RWaitPC
deriving DecidableEq, Repr

/-- The state right after `Session.Run` returns. -/
def runInit (output : List Frame) (withInput : Bool) : RunPumpState :=
  { pending := output
    buffered := []
    exited := false
    outSink := []
    errSink := []
    outG := .copying
    inG := if withInput then some .running else none
    stdinDone := !withInput
    connClosed := false
    waiter := .blocked }

/-- Interleaving steps of the container-run pump session. -/
inductive RunStep : RunPumpState → RunPumpState → Prop where
  | emit : ∀ s f rest, s.pending = f :: rest →
      RunStep s { s with pending := rest, buffered := s.buffered ++ [f] }
  | procExit : ∀ s, s.pending = [] → s.exited = false →
      RunStep s { s with exited := true }
  | drainOut : ∀ s f rest, s.outG = .copying → s.buffered = f :: rest →
      f.isErr = false →
      RunStep s { s with buffered := rest, outSink := s.outSink ++ [f.byte] }
  | drainErr : ∀ s f rest, s.outG = .copying → s.buffered = f :: rest →
      f.isErr = true →
      RunStep s { s with buffered := rest, errSink := s.errSink ++ [f.byte] }
  | copyEOF : ∀ s, s.outG = .copying → s.exited = true → s.buffered = [] →
      RunStep s { s with outG := .awaitingInputDone }
  | recvInputDone : ∀ s, s.outG = .awaitingInputDone → s.stdinDone = true →
      RunStep s { s with outG := .closingConn }
  | closeConn : ∀ s, s.outG = .closingConn →
      RunStep s { s with outG := .finished, connClosed := true }
  | inputEnds : ∀ s, s.inG = some .running →
      RunStep s { s with inG := some .finished, stdinDone := true }
  | waitNotifies : ∀ s, s.waiter = .blocked → s.exited = true →
      RunStep s { s with waiter := .returned }

/-- Reachability in the container-run pump session. -/
def RunReach (s t : RunPumpState) : Prop := Relation.ReflTransGen RunStep s t

@[simp]
theorem stdoutOf_nil : stdoutOf [] = [] := rfl

@[simp]
theorem stderrOf_nil : stderrOf [] = [] := rfl

@[simp]
theorem stdoutOf_append (a b : List Frame) :
    stdoutOf (a ++ b) = stdoutOf a ++ stdoutOf b := by
  simp [stdoutOf, List.filter_append]

@[simp]
theorem stderrOf_append (a b : List Frame) :
    stderrOf (a ++ b) = stderrOf a ++ stderrOf b := by
  simp [stderrOf, List.filter_append]

theorem stdoutOf_cons (f : Frame) (l : List Frame) :
    stdoutOf (f :: l) = if f.isErr then stdoutOf l else f.byte :: stdoutOf l := by
  by_cases h : f.isErr <;> simp [stdoutOf, h]

theorem stderrOf_cons (f : Frame) (l : List Frame) :
    stderrOf (f :: l) = if f.isErr then f.byte :: stderrOf l else stderrOf l := by
  by_cases h : f.isErr <;> simp [stderrOf, h]

/-- Inductive invariant of the exec pump session, relative to the state
`execInit output withInput`. -/
structure ExecInv (output : List Frame) (withInput : Bool) (s : ExecPumpState) : Prop where
  exited_pending : s.exited = true → s.pending = []
  out_account : s.outSink ++ stdoutOf (s.buffered ++ s.pending) = stdoutOf output
  err_account : s.errSink ++ stderrOf (s.buffered ++ s.pending) = stderrOf output
  eof_done : s.outG ≠ .copying → s.exited = true ∧ s.buffered = []
  conn_after_input :
    (s.outG = .closingConn ∨ s.outG = .closingAllDone ∨ s.outG = .finished) →
      s.stdinDone = true
  conn_iff : s.connClosed = true ↔ (s.outG = .closingAllDone ∨ s.outG = .finished)
  done_iff : s.allDone = true ↔ s.outG = .finished
  stdin_iff : s.stdinDone = true ↔ (s.inG = none ∨ s.inG = some .finished)
  input_none : s.inG = none ↔ withInput = false
  wait_done : (s.waiter = .selected ∨ s.waiter = .returned) → s.allDone = true

theorem execInv_init (output : List Frame) (withInput : Bool) :
    ExecInv output withInput (execInit output withInput) := by
  cases withInput <;>
    exact ⟨by simp [execInit], by simp [execInit], by simp [execInit],
      by simp [execInit], by simp [execInit], by simp [execInit],
      by simp [execInit], by simp [execInit], by simp [execInit],
      by simp [execInit]⟩

theorem execInv_step {output : List Frame} {withInput : Bool}
    {s t : ExecPumpState} (hs : ExecInv output withInput s) (st : ExecStep s t) :
    ExecInv output withInput t := by
  obtain ⟨h1, h2, h3, h4, h5, h6, h7, h8, h9, h10⟩ := hs
  cases st with
  | emit f rest hp =>
    refine ⟨?_, ?_, ?_, ?_, ?_, ?_, ?_, ?_, ?_, ?_⟩ <;>
      simp_all [List.append_assoc]
  | procExit hp hx =>
    exact ⟨fun _ => hp, by simpa using h2, by simpa using h3,
      fun hne => ⟨rfl, (h4 hne).2⟩, by simpa using h5, by simpa using h6,
      by simpa using h7, by simpa using h8, by simpa using h9,
      by simpa using h10⟩
  | drainOut f rest ho hb hf =>
    refine ⟨?_, ?_, ?_, ?_, ?_, ?_, ?_, ?_, ?_, ?_⟩ <;>
      simp_all [stdoutOf_cons, stderrOf_cons]
  | drainErr f rest ho hb hf =>
    refine ⟨?_, ?_, ?_, ?_, ?_, ?_, ?_, ?_, ?_, ?_⟩ <;>
      simp_all [stdoutOf_cons, stderrOf_cons]
  | copyEOF ho hx hb =>
    refine ⟨?_, ?_, ?_, ?_, ?_, ?_, ?_, ?_, ?_, ?_⟩ <;> simp_all
  | recvInputDone ho hd =>
    refine ⟨?_, ?_, ?_, ?_, ?_, ?_, ?_, ?_, ?_, ?_⟩ <;> simp_all
  | closeConn ho =>
    refine ⟨?_, ?_, ?_, ?_, ?_, ?_, ?_, ?_, ?_, ?_⟩ <;> simp_all
  | closeAllDone ho =>
    refine ⟨?_, ?_, ?_, ?_, ?_, ?_, ?_, ?_, ?_, ?_⟩ <;> simp_all
  | inputEnds hi =>
    refine ⟨?_, ?_, ?_, ?_, ?_, ?_, ?_, ?_, ?_, ?_⟩ <;> simp_all
  | ctxCancel hc =>
    refine ⟨?_, ?_, ?_, ?_, ?_, ?_, ?_, ?_, ?_, ?_⟩ <;> simp_all
  | selectDone hw ha =>
    refine ⟨?_, ?_, ?_, ?_, ?_, ?_, ?_, ?_, ?_, ?_⟩ <;> simp_all
  | selectCtx hw hc =>
    refine ⟨?_, ?_, ?_, ?_, ?_, ?_, ?_, ?_, ?_, ?_⟩ <;> simp_all
  | waitInspect hw =>
    refine ⟨?_, ?_, ?_, ?_, ?_, ?_, ?_, ?_, ?_, ?_⟩ <;> simp_all

theorem execInv_reach {output : List Frame} {withInput : Bool} {t : ExecPumpState}
    (h : ExecReach (execInit output withInput) t) : ExecInv output withInput t := by
  induction h with
  | refl => exact execInv_init output withInput
  | tail _ st ih => exact execInv_step ih st

/-- Inductive invariant of the container-run pump session, relative to the
state `runInit output withInput`. -/
structure RunInv (output : List Frame) (withInput : Bool) (s : RunPumpState) : Prop where
  exited_pending : s.exited = true → s.pending = []
  out_account : s.outSink ++ stdoutOf (s.buffered ++ s.pending) = stdoutOf output
  err_account : s.errSink ++ stderrOf (s.buffered ++ s.pending) = stderrOf output
  eof_done : s.outG ≠ .copying → s.exited = true ∧ s.buffered = []
  conn_after_input :
    (s.outG = .closingConn ∨ s.outG = .finished) → s.stdinDone = true
  conn_iff : s.connClosed = true ↔ s.outG = .finished
  stdin_iff : s.stdinDone = true ↔ (s.inG = none ∨ s.inG = some .finished)
  input_none : s.inG = none ↔ withInput = false
  wait_exited : s.waiter = .returned → s.exited = true

theorem runInv_init (output : List Frame) (withInput : Bool) :
    RunInv output withInput (runInit output withInput) := by
  cases withInput <;>
    exact ⟨by simp [runInit], by simp [runInit], by simp [runInit],
      by simp [runInit], by simp [runInit], by simp [runInit],
      by simp [runInit], by simp [runInit], by simp [runInit]⟩

theorem runInv_step {output : List Frame} {withInput : Bool}
    {s t : RunPumpState} (hs : RunInv output withInput s) (st : RunStep s t) :
    RunInv output withInput t := by
  obtain ⟨h1, h2, h3, h4, h5, h6, h7, h8, h9⟩ := hs
  cases st with
  | emit f rest hp =>
    refine ⟨?_, ?_, ?_, ?_, ?_, ?_, ?_, ?_, ?_⟩ <;>
      simp_all [List.append_assoc]
  | procExit hp hx =>
    refine ⟨?_, ?_, ?_, ?_, ?_, ?_, ?_, ?_, ?_⟩ <;> simp_all
  | drainOut f rest ho hb hf =>
    refine ⟨?_, ?_, ?_, ?_, ?_, ?_, ?_, ?_, ?_⟩ <;>
      simp_all [stdoutOf_cons, stderrOf_cons]
  | drainErr f rest ho hb hf =>
    refine ⟨?_, ?_, ?_, ?_, ?_, ?_, ?_, ?_, ?_⟩ <;>
      simp_all [stdoutOf_cons, stderrOf_cons]
  | copyEOF ho hx hb =>
    refine ⟨?_, ?_, ?_, ?_, ?_, ?_, ?_, ?_, ?_⟩ <;> simp_all
  | recvInputDone ho hd =>
    refine ⟨?_, ?_, ?_, ?_, ?_, ?_, ?_, ?_, ?_⟩ <;> simp_all
  | closeConn ho =>
    refine ⟨?_, ?_, ?_, ?_, ?_, ?_, ?_, ?_, ?_⟩ <;> simp_all
  | inputEnds hi =>
    refine ⟨?_, ?_, ?_, ?_, ?_, ?_, ?_, ?_, ?_⟩ <;> simp_all
  | waitNotifies hw hx =>
    refine ⟨?_, ?_, ?_, ?_, ?_, ?_, ?_, ?_, ?_⟩ <;> simp_all

theorem runInv_reach {output : List Frame} {withInput : Bool} {t : RunPumpState}
    (h : RunReach (runInit output withInput) t) : RunInv output withInput t := by
  induction h with
  | refl => exact runInv_init output withInput
  | tail _ st ih => exact runInv_step ih st

/-! ### Executable step application, for concrete traces -/

/-- Labels of the exec pump steps. -/
inductive ExecLabel where
  | emit
  | procExit
  | drainOut
  | drainErr
  | copyEOF
  | recvInputDone
  | closeConn
  | closeAllDone
  | inputEnds
  | ctxCancel
  | selectDone
  | selectCtx
  | waitInspect
deriving DecidableEq, Repr

/-- Apply one labelled exec pump step, when its guard is enabled. -/
def execApply (s : ExecPumpState) : ExecLabel → Option ExecPumpState
  | .emit =>
    match s.pending with
    | f :: rest => some { s with pending := rest, buffered := s.buffered ++ [f] }
    | [] => none
  | .procExit =>
    if s.pending = [] ∧ s.exited = false then some { s with exited := true } else none
  | .drainOut =>
    match s.buffered with
    | f :: rest =>
      if s.outG = .copying ∧ f.isErr = false then
        some { s with buffered := rest, outSink := s.outSink ++ [f.byte] }
      else none
    | [] => none
  | .drainErr =>
    match s.buffered with
    | f :: rest =>
      if s.outG = .copying ∧ f.isErr = true then
        some { s with buffered := rest, errSink := s.errSink ++ [f.byte] }
      else none
    | [] => none
  | .copyEOF =>
    if s.outG = .copying ∧ s.exited = true ∧ s.buffered = [] then
      some { s with outG := .awaitingInputDone }
    else none
  | .recvInputDone =>
    if s.outG = .awaitingInputDone ∧ s.stdinDone = true then
      some { s with outG := .closingConn }
    else none
  | .closeConn =>
    if s.outG = .closingConn then
      some { s with outG := .closingAllDone, connClosed := true }
    else none
  | .closeAllDone =>
    if s.outG = .closingAllDone then
      some { s with outG := .finished, allDone := true }
    else none
  | .inputEnds =>
    if s.inG = some .running then
      some { s with inG := some .finished, stdinDone := true }
    else none
  | .ctxCancel =>
    if s.ctxDone = false then some { s with ctxDone := true } else none
  | .selectDone =>
    if s.waiter = .blocked ∧ s.allDone = true then
      some { s with waiter := .selected }
    else none
  | .selectCtx =>
    if s.waiter = .blocked ∧ s.ctxDone = true then
      some { s with waiter := .cancelled }
    else none
  | .waitInspect =>
    if s.waiter = .selected then some { s with waiter := .returned } else none

theorem execApply_sound {s t : ExecPumpState} {l : ExecLabel}
    (h : execApply s l = some t) : ExecStep s t := by
  cases l <;> simp only [execApply] at h
  case emit =>
    rcases hp : s.pending with _ | ⟨f, rest⟩ <;> rw [hp] at h
    · exact absurd h (by simp)
    · exact Option.some_injective _ h ▸ ExecStep.emit s f rest hp
  case procExit =>
    split at h
    · exact Option.some_injective _ h ▸
        ExecStep.procExit s (by tauto) (by tauto)
    · exact absurd h (by simp)
  case drainOut =>
    rcases hb : s.buffered with _ | ⟨f, rest⟩ <;> rw [hb] at h
    · exact absurd h (by simp)
    · have h' : (if s.outG = OutPC.copying ∧ f.isErr = false then
          some { s with buffered := rest, outSink := s.outSink ++ [f.byte] }
        else (none : Option ExecPumpState)) = some t := h
      split at h'
      · exact Option.some_injective _ h' ▸
          ExecStep.drainOut s f rest (by tauto) hb (by tauto)
      · exact absurd h' (by simp)
  case drainErr =>
    rcases hb : s.buffered with _ | ⟨f, rest⟩ <;> rw [hb] at h
    · exact absurd h (by simp)
    · have h' : (if s.outG = OutPC.copying ∧ f.isErr = true then
          some { s with buffered := rest, errSink := s.errSink ++ [f.byte] }
        else (none : Option ExecPumpState)) = some t := h
      split at h'
      · exact Option.some_injective _ h' ▸
          ExecStep.drainErr s f rest (by tauto) hb (by tauto)
      · exact absurd h' (by simp)
  case copyEOF =>
    split at h
    · exact Option.some_injective _ h ▸
        ExecStep.copyEOF s (by tauto) (by tauto) (by tauto)
    · exact absurd h (by simp)
  case recvInputDone =>
    split at h
    · exact Option.some_injective _ h ▸
        ExecStep.recvInputDone s (by tauto) (by tauto)
    · exact absurd h (by simp)
  case closeConn =>
    split at h
    · exact Option.some_injective _ h ▸ ExecStep.closeConn s (by tauto)
    · exact absurd h (by simp)
  case closeAllDone =>
    split at h
    · exact Option.some_injective _ h ▸ ExecStep.closeAllDone s (by tauto)
    · exact absurd h (by simp)
  case inputEnds =>
    split at h
    · exact Option.some_injective _ h ▸ ExecStep.inputEnds s (by tauto)
    · exact absurd h (by simp)
  case ctxCancel =>
    split at h
    · exact Option.some_injective _ h ▸ ExecStep.ctxCancel s (by tauto)
    · exact absurd h (by simp)
  case selectDone =>
    split at h
    · exact Option.some_injective _ h ▸
        ExecStep.selectDone s (by tauto) (by tauto)
    · exact absurd h (by simp)
  case selectCtx =>
    split at h
    · exact Option.some_injective _ h ▸
        ExecStep.selectCtx s (by tauto) (by tauto)
    · exact absurd h (by simp)
  case waitInspect =>
    split at h
    · exact Option.some_injective _ h ▸ ExecStep.waitInspect s (by tauto)
    · exact absurd h (by simp)

/-- Run a list of labelled exec pump steps. -/
def execRunTrace (s : ExecPumpState) : List ExecLabel → Option ExecPumpState
  | [] => some s
  | l :: ls =>
    match execApply s l with
    | some t => execRunTrace t ls
    | none => none

theorem execRunTrace_sound {s t : ExecPumpState} {ls : List ExecLabel}
    (h : execRunTrace s ls = some t) : ExecReach s t := by
  induction ls generalizing s with
  | nil =>
    simp only [execRunTrace] at h
    exact Option.some_injective _ h ▸ Relation.ReflTransGen.refl
  | cons l ls ih =>
    simp only [execRunTrace] at h
    rcases ha : execApply s l with _ | u <;> rw [ha] at h
    · exact absurd h (by simp)
    · exact Relation.ReflTransGen.head (execApply_sound ha) (ih h)

/-- Labels of the container-run pump steps. -/
inductive RunLabel where
  | emit
  | procExit
  | drainOut
  | drainErr
  | copyEOF
  | recvInputDone
  | closeConn
  | inputEnds
  | waitNotifies
deriving DecidableEq, Repr

/-- Apply one labelled container-run pump step, when its guard is enabled. -/
def runApply (s : RunPumpState) : RunLabel → Option RunPumpState
  | .emit =>
    match s.pending with
    | f :: rest => some { s with pending := rest, buffered := s.buffered ++ [f] }
    | [] => none
  | .procExit =>
    if s.pending = [] ∧ s.exited = false then some { s with exited := true } else none
  | .drainOut =>
    match s.buffered with
    | f :: rest =>
      if s.outG = .copying ∧ f.isErr = false then
        some { s with buffered := rest, outSink := s.outSink ++ [f.byte] }
      else none
    | [] => none
  | .drainErr =>
    match s.buffered with
    | f :: rest =>
      if s.outG = .copying ∧ f.isErr = true then
        some { s with buffered := rest, errSink := s.errSink ++ [f.byte] }
      else none
    | [] => none
  | .copyEOF =>
    if s.outG = .copying ∧ s.exited = true ∧ s.buffered = [] then
      some { s with outG := .awaitingInputDone }
    else none
  | .recvInputDone =>
    if s.outG = .awaitingInputDone ∧ s.stdinDone = true then
      some { s with outG := .closingConn }
    else none
  | .closeConn =>
    if s.outG = .closingConn then
      some { s with outG := .finished, connClosed := true }
    else none
  | .inputEnds =>
    if s.inG = some .running then
      some { s with inG := some .finished, stdinDone := true }
    else none
  | .waitNotifies =>
    if s.waiter = .blocked ∧ s.exited = true then
      some { s with waiter := .returned }
    else none

theorem runApply_sound {s t : RunPumpState} {l : RunLabel}
    (h : runApply s l = some t) : RunStep s t := by
  cases l <;> simp only [runApply] at h
  case emit =>
    rcases hp : s.pending with _ | ⟨f, rest⟩ <;> rw [hp] at h
    · exact absurd h (by simp)
    · exact Option.some_injective _ h ▸ RunStep.emit s f rest hp
  case procExit =>
    split at h
    · exact Option.some_injective _ h ▸
        RunStep.procExit s (by tauto) (by tauto)
    · exact absurd h (by simp)
  case drainOut =>
    rcases hb : s.buffered with _ | ⟨f, rest⟩ <;> rw [hb] at h
    · exact absurd h (by simp)
    · have h' : (if s.outG = ROutPC.copying ∧ f.isErr = false then
          some { s with buffered := rest, outSink := s.outSink ++ [f.byte] }
        else (none : Option RunPumpState)) = some t := h
      split at h'
      · exact Option.some_injective _ h' ▸
          RunStep.drainOut s f rest (by tauto) hb (by tauto)
      · exact absurd h' (by simp)
  case drainErr =>
    rcases hb : s.buffered with _ | ⟨f, rest⟩ <;> rw [hb] at h
    · exact absurd h (by simp)
    · have h' : (if s.outG = ROutPC.copying ∧ f.isErr = true then
          some { s with buffered := rest, errSink := s.errSink ++ [f.byte] }
        else (none : Option RunPumpState)) = some t := h
      split at h'
      · exact Option.some_injective _ h' ▸
          RunStep.drainErr s f rest (by tauto) hb (by tauto)
      · exact absurd h' (by simp)
  case copyEOF =>
    split at h
    · exact Option.some_injective _ h ▸
        RunStep.copyEOF s (by tauto) (by tauto) (by tauto)
    · exact absurd h (by simp)
  case recvInputDone =>
    split at h
    · exact Option.some_injective _ h ▸
        RunStep.recvInputDone s (by tauto) (by tauto)
    · exact absurd h (by simp)
  case closeConn =>
    split at h
    · exact Option.some_injective _ h ▸ RunStep.closeConn s (by tauto)
    · exact absurd h (by simp)
  case inputEnds =>
    split at h
    · exact Option.some_injective _ h ▸ RunStep.inputEnds s (by tauto)
    · exact absurd h (by simp)
  case waitNotifies =>
    split at h
    · exact Option.some_injective _ h ▸
        RunStep.waitNotifies s (by tauto) (by tauto)
    · exact absurd h (by simp)

/-- Run a list of labelled container-run pump steps. -/
def runRunTrace (s : RunPumpState) : List RunLabel → Option RunPumpState
  | [] => some s
  | l :: ls =>
    match runApply s l with
    | some t => runRunTrace t ls
    | none => none

theorem runRunTrace_sound {s t : RunPumpState} {ls : List RunLabel}
    (h : runRunTrace s ls = some t) : RunReach s t := by
  induction ls generalizing s with
  | nil =>
    simp only [runRunTrace] at h
    exact Option.some_injective _ h ▸ Relation.ReflTransGen.refl
  | cons l ls ih =>
    simp only [runRunTrace] at h
    rcases ha : runApply s l with _ | u <;> rw [ha] at h
    · exact absurd h (by simp)
    · exact Relation.ReflTransGen.head (runApply_sound ha) (ih h)

/-! ## Error-chain helper lemmas -/

theorem GoError.is_self (e : GoError) : e.is e = true := by
  cases e <;> simp [GoError.is]

theorem GoError.wrap_is_cause (s : String) (c : GoError) :
    (GoError.wrap s c).is c = true := by
  simp [GoError.is, GoError.is_self]

/-! ## Claims about Session.Run -/

/-- Claim C3 (confirmed): when the engine's start call fails after create
succeeded, Run force-removes the just-created container before returning; the
returned error is the (wrapped) start error regardless of how the removal
fares, so a removal failure is swallowed and never masks it; and when the
removal goes through, the container no longer exists engine-side, so a
subsequent inspect by ID fails with not-found. -/
theorem C3_start_failure_cleanup (scr : RunScript) (cs : List String)
    (id : String) (e : GoError) (o : RunOptsResolved)
    (hopts : scr.opts = .ok o)
    (himg : scr.hasImage = .ok true ∨
      (scr.hasImage = .ok false ∧ scr.pullImage = .ok ()))
    (hcreate : scr.create = .ok id) (hattach : scr.attach = .ok ())
    (hstart : scr.start = .error e) :
    (sessionRun scr cs).outcome = .fail (.wrap "cannot start container, reason" e) ∧
    (GoError.wrap "cannot start container, reason" e).is e = true ∧
    EngineCall.containerRemove true ∈ (sessionRun scr cs).calls ∧
    (scr.removeOk = true → id ∉ (sessionRun scr cs).containers) := by
  rcases himg with himg | ⟨himg, hpull⟩ <;>
    refine ⟨?_, GoError.wrap_is_cause _ _, ?_, ?_⟩ <;>
    simp_all [sessionRun, removeForce]

/-- Claim C4 counterexample: with create, attach and start succeeding and the
subsequent inspect failing, Run's deferred cleanup does remove the
just-started container (a forced remove is issued and the engine's container
set is empty again), contradicting the claim that the container is left in
place. -/
theorem C4_counterexample :
    (sessionRun ⟨.ok ⟨false, false, "x"⟩, .ok true, .ok (), .ok "c1", .ok (),
        .ok (), .error (.msg "boom"), true⟩ []).outcome =
      .fail (.wrap "cannot inspect newly started container, reason" (.msg "boom")) ∧
    EngineCall.containerRemove true ∈
      (sessionRun ⟨.ok ⟨false, false, "x"⟩, .ok true, .ok (), .ok "c1", .ok (),
        .ok (), .error (.msg "boom"), true⟩ []).calls ∧
    (sessionRun ⟨.ok ⟨false, false, "x"⟩, .ok true, .ok (), .ok "c1", .ok (),
        .ok (), .error (.msg "boom"), true⟩ []).containers = [] := by
  refine ⟨rfl, by decide, by decide⟩

/-- Claim C4 (amended): when create, attach and start all succeed but the
subsequent inspect fails, Run returns the (wrapped) inspect error, and — like
every other error return after create — the deferred cleanup force-removes the
already-running container, so the caller is not left with it. -/
theorem C4_inspect_failure (scr : RunScript) (cs : List String)
    (id : String) (e : GoError) (o : RunOptsResolved)
    (hopts : scr.opts = .ok o)
    (himg : scr.hasImage = .ok true ∨
      (scr.hasImage = .ok false ∧ scr.pullImage = .ok ()))
    (hcreate : scr.create = .ok id) (hattach : scr.attach = .ok ())
    (hstart : scr.start = .ok ()) (hinspect : scr.inspect = .error e) :
    (sessionRun scr cs).outcome =
      .fail (.wrap "cannot inspect newly started container, reason" e) ∧
    EngineCall.containerRemove true ∈ (sessionRun scr cs).calls ∧
    (scr.removeOk = true → id ∉ (sessionRun scr cs).containers) := by
  rcases himg with himg | ⟨himg, hpull⟩ <;>
    refine ⟨?_, ?_, ?_⟩ <;>
    simp_all [sessionRun, removeForce]

/-- Claim C10 (confirmed): on Run's success path the returned container name
is the engine-reported name with exactly its first character (the leading
slash) removed, and the `details.Name[1:]` slicing is in bounds — the success
path panic-free — exactly when the inspect response carries a non-empty name:
with an empty name the slicing panics. -/
theorem C10_name_slice (scr : RunScript) (cs : List String)
    (id : String) (d : ContainerJSON) (o : RunOptsResolved)
    (hopts : scr.opts = .ok o)
    (himg : scr.hasImage = .ok true ∨
      (scr.hasImage = .ok false ∧ scr.pullImage = .ok ()))
    (hcreate : scr.create = .ok id) (hattach : scr.attach = .ok ())
    (hstart : scr.start = .ok ()) (hinspect : scr.inspect = .ok d) :
    (d.name ≠ "" → (sessionRun scr cs).outcome = .ok ⟨d.name.drop 1, id⟩) ∧
    (d.name = "" → (sessionRun scr cs).outcome = .panic) := by
  have hlen : d.name ≠ "" ↔ 1 ≤ d.name.length := by
    rw [Nat.one_le_iff_ne_zero]
    constructor
    · intro h hf
      refine h ?_
      cases hd : d.name with
      | mk data =>
        rw [hd] at hf
        simp [String.length] at hf
        simp [hf]
    · intro h hf
      exact h (by simp [hf])
  constructor
  · intro hne
    have h1 : goSliceFrom d.name 1 = some (d.name.drop 1) := by
      simp [goSliceFrom, hlen.mp hne]
    rcases himg with himg | ⟨himg, hpull⟩ <;>
      simp_all [sessionRun]
  · intro hemp
    have h1 : goSliceFrom d.name 1 = none := by
      simp [goSliceFrom, hemp]
    rcases himg with himg | ⟨himg, hpull⟩ <;>
      simp_all [sessionRun]

/-- Claim C10 witness: a concrete all-successful run whose inspect reports
name "/box" yields a container named "box". -/
theorem C10_name_slice_witness :
    (sessionRun ⟨.ok ⟨false, false, "x"⟩, .ok true, .ok (), .ok "c1", .ok (),
        .ok (), .ok ⟨"/box", none⟩, true⟩ []).outcome = .ok ⟨"box", "c1"⟩ := by
  have h := C10_name_slice
    ⟨.ok ⟨false, false, "x"⟩, .ok true, .ok (), .ok "c1", .ok (),
      .ok (), .ok ⟨"/box", none⟩, true⟩ [] "c1" ⟨"/box", none⟩
    ⟨false, false, "x"⟩ rfl (Or.inl rfl) rfl rfl rfl rfl
  exact h.1 (by decide)

/-- Claim C3 witness: a concrete run whose start fails with "boom" returns the
wrapped start error, issues the forced removal, and leaves no container. -/
theorem C3_start_failure_cleanup_witness :
    (sessionRun ⟨.ok ⟨false, false, "x"⟩, .ok true, .ok (), .ok "c1", .ok (),
        .error (.msg "boom"), .ok ⟨"/box", none⟩, true⟩ []).outcome =
      .fail (.wrap "cannot start container, reason" (.msg "boom")) ∧
    EngineCall.containerRemove true ∈
      (sessionRun ⟨.ok ⟨false, false, "x"⟩, .ok true, .ok (), .ok "c1", .ok (),
        .error (.msg "boom"), .ok ⟨"/box", none⟩, true⟩ []).calls ∧
    "c1" ∉ (sessionRun ⟨.ok ⟨false, false, "x"⟩, .ok true, .ok (), .ok "c1",
        .ok (), .error (.msg "boom"), .ok ⟨"/box", none⟩, true⟩ []).containers := by
  have h := C3_start_failure_cleanup
    ⟨.ok ⟨false, false, "x"⟩, .ok true, .ok (), .ok "c1", .ok (),
      .error (.msg "boom"), .ok ⟨"/box", none⟩, true⟩ [] "c1" (.msg "boom")
    ⟨false, false, "x"⟩ rfl (Or.inl rfl) rfl rfl rfl
  exact ⟨h.1, h.2.2.1, h.2.2.2 rfl⟩

/-- Claim C4 witness: the amended statement at the concrete failing-inspect
script of the counterexample. -/
theorem C4_inspect_failure_witness :
    (sessionRun ⟨.ok ⟨false, false, "x"⟩, .ok true, .ok (), .ok "c1", .ok (),
        .ok (), .error (.msg "boom"), true⟩ []).outcome =
      .fail (.wrap "cannot inspect newly started container, reason" (.msg "boom")) ∧
    "c1" ∉ (sessionRun ⟨.ok ⟨false, false, "x"⟩, .ok true, .ok (), .ok "c1",
        .ok (), .ok (), .error (.msg "boom"), true⟩ []).containers := by
  have h := C4_inspect_failure
    ⟨.ok ⟨false, false, "x"⟩, .ok true, .ok (), .ok "c1", .ok (),
      .ok (), .error (.msg "boom"), true⟩ [] "c1" (.msg "boom")
    ⟨false, false, "x"⟩ rfl (Or.inl rfl) rfl rfl rfl rfl
  exact ⟨h.1, h.2.2 rfl⟩

/-! ## Claims about Container.Exec -/

/-- Claim C7 (confirmed): Exec inspects the target container before the
exec-create engine call; an inspect failure aborts the whole operation with
only the inspect call having been issued — no exec context is created
engine-side — and whenever an exec-create call is issued at all, it is
preceded by a successful inspect. -/
theorem C7_inspect_before_execCreate (c : ContainerRef) (scr : ExecScript) :
    (∀ o e, scr.opts = .ok o → scr.inspect = .error e →
      (containerExec c scr).outcome = .error (.wrap (execIntoMsg c) e) ∧
      (containerExec c scr).calls = [.containerInspect]) ∧
    (EngineCall.containerExecCreate ∈ (containerExec c scr).calls →
      (containerExec c scr).calls.take 2 =
        [.containerInspect, .containerExecCreate] ∧
      ∃ d, scr.inspect = .ok d) := by
  constructor
  · intro o e hopts hinsp
    simp [containerExec, hopts, hinsp]
  · intro hmem
    rcases hopts : scr.opts with eo | o <;>
      rcases hinsp : scr.inspect with ei | d <;>
        rcases hcr : scr.execCreate with ec | xid <;>
          rcases hat : scr.execAttach with ea | u <;>
            simp_all [containerExec]

/-- Claim C7 witness: at a concrete script whose container inspect fails, the
operation aborts with only the inspect call issued; at a concrete script that
reaches exec-create, the calls begin inspect-then-exec-create. -/
theorem C7_inspect_before_execCreate_witness :
    ((containerExec ⟨"box", "c1"⟩
        ⟨.ok ⟨false, false⟩, .error (.msg "no such container"), .ok "x1", .ok ()⟩).outcome =
      .error (.wrap (execIntoMsg ⟨"box", "c1"⟩) (.msg "no such container")) ∧
     (containerExec ⟨"box", "c1"⟩
        ⟨.ok ⟨false, false⟩, .error (.msg "no such container"), .ok "x1", .ok ()⟩).calls =
      [.containerInspect]) ∧
    (containerExec ⟨"box", "c1"⟩
        ⟨.ok ⟨false, false⟩, .ok ⟨"/box", none⟩, .ok "x1", .ok ()⟩).calls.take 2 =
      [.containerInspect, .containerExecCreate] := by
  refine ⟨(C7_inspect_before_execCreate ⟨"box", "c1"⟩
    ⟨.ok ⟨false, false⟩, .error (.msg "no such container"), .ok "x1", .ok ()⟩).1
      ⟨false, false⟩ (.msg "no such container") rfl rfl, ?_⟩
  exact ((C7_inspect_before_execCreate ⟨"box", "c1"⟩
    ⟨.ok ⟨false, false⟩, .ok ⟨"/box", none⟩, .ok "x1", .ok ()⟩).2 (by decide)).1

/-! ## Claims about the PID polling loops -/

/-- A prefix of exec-inspect responses that all report not-yet-running (and
with neither the done channel closed nor the context cancelled at those
iterations) is polled through: one inspect and one `DefaultSleep` nap each,
before the loop continues with the remaining script. -/
theorem execPID_skip (pre : List ExecInspect)
    (resps : List (Except GoError ExecInspect)) (doneAt : Nat → Bool)
    (cancel : Nat → Option GoError) (k : Nat)
    (hnr : ∀ i ∈ pre, (i.running && i.pid != 0) = false)
    (hdone : ∀ j, j < pre.length → doneAt (k + j) = false)
    (hcancel : ∀ j, j < pre.length → cancel (k + j) = none) :
    execPID (pre.map .ok ++ resps) doneAt cancel k =
      ⟨(execPID resps doneAt cancel (k + pre.length)).result,
        (execPID resps doneAt cancel (k + pre.length)).inspects + pre.length,
        List.replicate pre.length DefaultSleep ++
          (execPID resps doneAt cancel (k + pre.length)).naps⟩ := by
  induction pre generalizing k with
  | nil => simp
  | cons i pre ih =>
    have hi : (i.running && i.pid != 0) = false := hnr i (by simp)
    have hd : doneAt k = false := by simpa using hdone 0 (by simp)
    have hc : cancel k = none := by simpa using hcancel 0 (by simp)
    have ihk := ih (k + 1) (fun j hj => hnr j (List.mem_cons_of_mem i hj))
      (fun j hj => by
        have h := hdone (j + 1) (by simp; omega)
        rwa [show k + (j + 1) = k + 1 + j by omega] at h)
      (fun j hj => by
        have h := hcancel (j + 1) (by simp; omega)
        rwa [show k + (j + 1) = k + 1 + j by omega] at h)
    simp only [List.length_cons]
    rw [show k + (pre.length + 1) = k + 1 + pre.length by omega]
    simp only [List.map_cons, List.cons_append, execPID, hi, hd, hc, Sleep,
      Bool.false_eq_true, if_false]
    simp only [List.append_eq]
    rw [ihk]
    simp [List.replicate_succ, Nat.add_assoc, Nat.add_comm, Nat.add_left_comm]

/-- Claim C5 (confirmed): `ExecSession.PID` (a) propagates an inspect API
error immediately (one inspect, wrapped, no nap); (b) with N not-yet-running
responses followed by a Running-with-nonzero-PID response, returns that PID
without error after N+1 inspects and N default naps; (c) returns the "command
has already terminated" error as soon as a response lacks a running PID while
the done channel is closed; (d) otherwise naps exactly `DefaultSleep`
(= 10 ms) and retries with the rest of the script, the nap cancellable by the
caller's context, in which case the context error is returned verbatim. -/
theorem C5_execPID_behaviour :
    (∀ e rest doneAt cancel k,
      execPID (.error e :: rest) doneAt cancel k =
        ⟨.error (.wrap "cannot determine the PID of the excuting command, reason" e),
          1, []⟩) ∧
    (∀ (pre : List ExecInspect) (insp : ExecInspect) rest doneAt cancel,
      (∀ i ∈ pre, (i.running && i.pid != 0) = false) →
      (∀ j, j < pre.length → doneAt j = false) →
      (∀ j, j < pre.length → cancel j = none) →
      insp.running = true → insp.pid ≠ 0 →
      execPID (pre.map .ok ++ (.ok insp :: rest)) doneAt cancel 0 =
        ⟨.ok insp.pid, pre.length + 1, List.replicate pre.length DefaultSleep⟩) ∧
    (∀ (insp : ExecInspect) rest doneAt cancel k,
      (insp.running && insp.pid != 0) = false → doneAt k = true →
      execPID (.ok insp :: rest) doneAt cancel k =
        ⟨.error (.msg "command has already terminated"), 1, []⟩) ∧
    (∀ (insp : ExecInspect) rest doneAt cancel k,
      (insp.running && insp.pid != 0) = false → doneAt k = false →
      cancel k = none →
      execPID (.ok insp :: rest) doneAt cancel k =
        ⟨(execPID rest doneAt cancel (k + 1)).result,
          (execPID rest doneAt cancel (k + 1)).inspects + 1,
          DefaultSleep :: (execPID rest doneAt cancel (k + 1)).naps⟩) ∧
    (∀ (insp : ExecInspect) rest doneAt cancel k e,
      (insp.running && insp.pid != 0) = false → doneAt k = false →
      cancel k = some e →
      execPID (.ok insp :: rest) doneAt cancel k =
        ⟨.error e, 1, [DefaultSleep]⟩) ∧
    DefaultSleep = 10 := by
  refine ⟨fun e rest doneAt cancel k => rfl, ?_, ?_, ?_, ?_, rfl⟩
  · intro pre insp rest doneAt cancel hnr hdone hcancel hrun hpid
    have hskip := execPID_skip pre (.ok insp :: rest) doneAt cancel 0 hnr
      (by simpa using hdone) (by simpa using hcancel)
    have hready : (insp.running && insp.pid != 0) = true := by
      simp [hrun, hpid]
    rw [hskip]
    simp [execPID, hready, Nat.add_comm]
  · intro insp rest doneAt cancel k hnr hd
    simp [execPID, hnr, hd]
  · intro insp rest doneAt cancel k hnr hd hc
    simp [execPID, hnr, hd, hc, Sleep]
  · intro insp rest doneAt cancel k e hnr hd hc
    simp [execPID, hnr, hd, hc, Sleep]

/-- Claim C5 witness: two not-yet-started reports (no PID in a non-terminal
situation) followed by a Running report with PID 42 make `PID` return 42
after three inspects and two 10 ms naps; an immediately failing inspect
propagates the wrapped error; a closed done channel yields the
already-terminated error; and the nap interval is 10 ms. -/
theorem C5_execPID_behaviour_witness :
    execPID ([⟨false, 0, 0⟩, ⟨false, 0, 0⟩].map .ok ++
        (.ok ⟨true, 42, 0⟩ :: [])) (fun _ => false) (fun _ => none) 0 =
      ⟨.ok 42, 3, [10, 10]⟩ ∧
    execPID [.error (.msg "kaputt")] (fun _ => false) (fun _ => none) 0 =
      ⟨.error (.wrap "cannot determine the PID of the excuting command, reason"
        (.msg "kaputt")), 1, []⟩ ∧
    execPID [.ok ⟨false, 0, 0⟩] (fun _ => true) (fun _ => none) 0 =
      ⟨.error (.msg "command has already terminated"), 1, []⟩ := by
  obtain ⟨ha, hb, hc, _, _, h10⟩ := C5_execPID_behaviour
  refine ⟨?_, ha (.msg "kaputt") [] (fun _ => false) (fun _ => none) 0, ?_⟩
  · have h := hb [⟨false, 0, 0⟩, ⟨false, 0, 0⟩] ⟨true, 42, 0⟩ []
      (fun _ => false) (fun _ => none) (by decide)
      (fun j _ => rfl) (fun j _ => rfl) rfl (by decide)
    rw [h, h10]
    rfl
  · exact hc ⟨false, 0, 0⟩ [] (fun _ => true) (fun _ => none) 0 rfl rfl

/-- Claim C6 counterexample: a single inspect response whose state reports
`Running = false` yet a non-zero PID 42 makes `Container.PID` return 42
successfully — the code never consults the Running flag, contradicting
"returns success only when inspection reports Running with a non-zero PID". -/
theorem C6_counterexample :
    (containerPID ⟨"box", "c1"⟩
        [.ok ⟨"", some ⟨42, false, false, false, false, "exited"⟩⟩]
        (fun _ => none) 0).result = .ok 42 ∧
    (ContainerState.mk 42 false false false false "exited").running = false := by
  exact ⟨rfl, rfl⟩

/-- Claim C6 (amended): `Container.PID` returns success exactly when an
inspect response carries a state with a non-zero PID — the Running flag is not
consulted — and it returns an error immediately, after that single inspect and
with no further polling iterations, when a response reports a non-restartable
terminal failure state (dead or OOM-killed, and not restarting) with PID 0. -/
theorem C6_containerPID_amended (c : ContainerRef) :
    (∀ (insp : ContainerJSON) st rest cancel k, insp.state = some st →
      st.pid ≠ 0 →
      containerPID c (.ok insp :: rest) cancel k = ⟨.ok st.pid, 1, []⟩) ∧
    (∀ (insp : ContainerJSON) st rest cancel k, insp.state = some st →
      st.pid = 0 → ((st.dead || st.oomKilled) && !st.restarting) = true →
      containerPID c (.ok insp :: rest) cancel k =
        ⟨.error (.msg (pidStateMsg c st.status)), 1, []⟩) ∧
    (∀ resps cancel k p, (containerPID c resps cancel k).result = .ok p →
      ∃ (insp : ContainerJSON) (st : ContainerState),
        .ok insp ∈ resps ∧ insp.state = some st ∧ st.pid = p ∧ p ≠ 0) := by
  refine ⟨?_, ?_, ?_⟩
  · intro insp st rest cancel k hst hpid
    simp [containerPID, hst, hpid]
  · intro insp st rest cancel k hst hpid hterm
    simp [containerPID, hst, hpid, hterm]
  · intro resps
    induction resps with
    | nil => intro cancel k p h; exact absurd h (by simp [containerPID])
    | cons r rest ih =>
      intro cancel k p h
      rcases r with e | insp
      · exact absurd h (by simp [containerPID])
      · obtain ⟨nm, stOpt⟩ := insp
        rcases stOpt with _ | st
        · simp only [containerPID, Sleep] at h
          rcases hc : cancel k with _ | e <;> rw [hc] at h <;> simp at h
          obtain ⟨insp', st', hmem, h1, h2, h3⟩ := ih cancel (k + 1) p h
          exact ⟨insp', st', by simp [hmem], h1, h2, h3⟩
        · simp only [containerPID, Sleep] at h
          by_cases hpid : st.pid ≠ 0
          · rw [if_pos hpid] at h
            simp at h
            exact ⟨⟨nm, some st⟩, st, by simp, rfl, h, by omega⟩
          · rw [if_neg hpid] at h
            rcases hterm : ((st.dead || st.oomKilled) && !st.restarting) with _ | _ <;>
              rw [hterm] at h
            · rcases hc : cancel k with _ | e <;> rw [hc] at h <;> simp at h
              obtain ⟨insp', st', hmem, h1, h2, h3⟩ := ih cancel (k + 1) p h
              exact ⟨insp', st', by simp [hmem], h1, h2, h3⟩
            · simp at h

/-- Claim C6 witness: the amended statement at concrete inputs — PID 42 with
Running unset succeeds at once; a dead, non-restarting, PID-0 report errors
after exactly one inspect with no nap. -/
theorem C6_containerPID_amended_witness :
    containerPID ⟨"box", "c1"⟩
        [.ok ⟨"", some ⟨42, false, false, false, false, "exited"⟩⟩]
        (fun _ => none) 0 = ⟨.ok 42, 1, []⟩ ∧
    containerPID ⟨"box", "c1"⟩
        [.ok ⟨"", some ⟨0, false, true, false, false, "dead"⟩⟩,
         .ok ⟨"", some ⟨7, false, false, false, false, "running"⟩⟩]
        (fun _ => none) 0 =
      ⟨.error (.msg (pidStateMsg ⟨"box", "c1"⟩ "dead")), 1, []⟩ := by
  obtain ⟨h1, h2, _⟩ := C6_containerPID_amended ⟨"box", "c1"⟩
  exact ⟨h1 ⟨"", some ⟨42, false, false, false, false, "exited"⟩⟩
      ⟨42, false, false, false, false, "exited"⟩ [] (fun _ => none) 0 rfl
      (by decide),
    h2 ⟨"", some ⟨0, false, true, false, false, "dead"⟩⟩
      ⟨0, false, true, false, false, "dead"⟩
      [.ok ⟨"", some ⟨7, false, false, false, false, "running"⟩⟩]
      (fun _ => none) 0 rfl rfl (by decide)⟩

/-! ## Claims about cancellation and Wait -/

/-- Claim C8 counterexample: `Container.PID` with a context that is cancelled
at the first nap returns the context error wrapped in the
container-identifying message — not the context's own error verbatim. -/
theorem C8_counterexample :
    (containerPID ⟨"box", "c1"⟩ [.ok ⟨"", none⟩]
        (fun _ => some (.msg "context canceled")) 0).result =
      .error (.wrap (pidReasonMsg ⟨"box", "c1"⟩) (.msg "context canceled")) ∧
    GoError.wrap (pidReasonMsg ⟨"box", "c1"⟩) (.msg "context canceled") ≠
      GoError.msg "context canceled" := by
  exact ⟨rfl, by decide⟩

/-- Claim C8 (amended): a cancelled context makes Wait and PID return
promptly — after at most the current inspect and one `DefaultSleep` nap — with
the context's error: verbatim from `ExecSession.Wait` (which performs no
inspect at all on that path) and from `ExecSession.PID`; wrapped with the
container identity, the context error preserved down the `errors.Is` chain,
from `Container.PID` and `Container.Wait`. -/
theorem C8_cancellation (c : ContainerRef) (e : GoError) :
    (∀ pick insp, execWait (some e) false pick insp = some ⟨0, some e, 0⟩) ∧
    (∀ insp, execWait (some e) true .ctxBranch insp = some ⟨0, some e, 0⟩) ∧
    (∀ (insp : ExecInspect) rest doneAt cancel k,
      (insp.running && insp.pid != 0) = false → doneAt k = false →
      cancel k = some e →
      execPID (.ok insp :: rest) doneAt cancel k =
        ⟨.error e, 1, [DefaultSleep]⟩) ∧
    (∀ (insp : ContainerJSON) rest cancel k, insp.state = none →
      cancel k = some e →
      containerPID c (.ok insp :: rest) cancel k =
        ⟨.error (.wrap (pidReasonMsg c) e), 1, [DefaultSleep]⟩) ∧
    (∀ (insp : ContainerJSON) st rest cancel k, insp.state = some st →
      st.pid = 0 → ((st.dead || st.oomKilled) && !st.restarting) = false →
      cancel k = some e →
      containerPID c (.ok insp :: rest) cancel k =
        ⟨.error (.wrap (pidReasonMsg c) e), 1, [DefaultSleep]⟩) ∧
    (containerWait c (.errch e) =
      some (.wrap ("waiting for container " ++ c.name ++ "/" ++ c.abbreviatedID ++
        " to finish failed, reason") e)) ∧
    (GoError.wrap (pidReasonMsg c) e).is e = true := by
  refine ⟨fun pick insp => rfl, fun insp => rfl, ?_, ?_, ?_, rfl,
    GoError.wrap_is_cause _ _⟩
  · intro insp rest doneAt cancel k hnr hd hc
    simp [execPID, hnr, hd, hc, Sleep]
  · intro insp rest cancel k hst hc
    simp [containerPID, hst, hc, Sleep]
  · intro insp st rest cancel k hst hpid hterm hc
    simp [containerPID, hst, hpid, hterm, hc, Sleep]

/-- Claim C8 witness: the amended statement at concrete inputs — an
exec Wait and an exec PID poll under a context cancelled with "context
canceled" return that error verbatim after at most one nap, and a container
PID poll returns it wrapped with the cause preserved. -/
theorem C8_cancellation_witness :
    execWait (some (.msg "context canceled")) false .ctxBranch
        (.ok ⟨false, 0, 0⟩) = some ⟨0, some (.msg "context canceled"), 0⟩ ∧
    execPID [.ok ⟨false, 0, 0⟩] (fun _ => false)
        (fun _ => some (.msg "context canceled")) 0 =
      ⟨.error (.msg "context canceled"), 1, [DefaultSleep]⟩ ∧
    containerPID ⟨"box", "c1"⟩ [.ok ⟨"", none⟩]
        (fun _ => some (.msg "context canceled")) 0 =
      ⟨.error (.wrap (pidReasonMsg ⟨"box", "c1"⟩) (.msg "context canceled")),
        1, [DefaultSleep]⟩ ∧
    (GoError.wrap (pidReasonMsg ⟨"box", "c1"⟩)
        (.msg "context canceled")).is (.msg "context canceled") = true := by
  obtain ⟨h1, _, h3, h4, _, _, h7⟩ :=
    C8_cancellation ⟨"box", "c1"⟩ (.msg "context canceled")
  exact ⟨h1 .ctxBranch (.ok ⟨false, 0, 0⟩),
    h3 ⟨false, 0, 0⟩ [] (fun _ => false) (fun _ => some (.msg "context canceled"))
      0 rfl rfl rfl,
    h4 ⟨"", none⟩ [] (fun _ => some (.msg "context canceled")) 0 rfl rfl, h7⟩

/-- Claim C9 (confirmed): when the final exec-inspect performed by
`ExecSession.Wait` after the done channel has closed still reports the command
as Running, Wait returns exit code 0 together with the distinct
internal-consistency error "command execution still alive when it should not"
— a leaf error, not a wrap of any engine error — after that one inspect,
without retrying it; and this holds on both select resolutions that take the
done branch. -/
theorem C9_still_alive_anomaly (insp : ExecInspect) (hrun : insp.running = true) :
    (∀ pick, execWait none true pick (.ok insp) =
      some ⟨0, some (.msg "command execution still alive when it should not"), 1⟩) ∧
    (∀ e, execWait (some e) true .doneBranch (.ok insp) =
      some ⟨0, some (.msg "command execution still alive when it should not"), 1⟩) ∧
    (∀ s e, GoError.msg "command execution still alive when it should not" ≠
      GoError.wrap s e) := by
  refine ⟨?_, ?_, fun s e => by simp⟩
  · intro pick
    simp [execWait, execWaitFetch, hrun]
  · intro e
    simp [execWait, execWaitFetch, hrun]

/-- Claim C9 witness: the theorem at the concrete still-running inspect
response. -/
theorem C9_still_alive_anomaly_witness :
    execWait none true .doneBranch (.ok ⟨true, 42, 0⟩) =
      some ⟨0, some (.msg "command execution still alive when it should not"), 1⟩ := by
  exact (C9_still_alive_anomaly ⟨true, 42, 0⟩ rfl).1 .doneBranch

/-! ## Claims about the pump/Wait coordination -/

/-- Claim C1 counterexample: in the container-backed variant, `Container.Wait`
returns on the engine's not-running notification without any completion
signal; in this reachable execution of the Run pump the process has exited and
Wait has returned while its one output byte is still buffered in the
connection, so the output sink does not hold every byte the process wrote. -/
theorem C1_counterexample :
    RunReach (runInit [Frame.mk false 104] false)
      ⟨[], [Frame.mk false 104], true, [], [], .copying, none, true, false,
        .returned⟩ ∧
    (⟨[], [Frame.mk false 104], true, [], [], .copying, none, true, false,
        .returned⟩ : RunPumpState).waiter = .returned ∧
    (⟨[], [Frame.mk false 104], true, [], [], .copying, none, true, false,
        .returned⟩ : RunPumpState).outSink ≠ stdoutOf [Frame.mk false 104] := by
  refine ⟨@runRunTrace_sound (runInit [Frame.mk false 104] false)
    ⟨[], [Frame.mk false 104], true, [], [], .copying, none, true, false,
      .returned⟩ [.emit, .procExit, .waitNotifies] (by decide), rfl, by decide⟩

/-- Claim C1 (amended): for exec-backed sessions, `Wait`'s final exit-code
fetch is performed only from states in which the completion signal (`allDone`)
has fired, and in every reachable state in which Wait has returned through the
completion branch the output sink holds, byte-for-byte and in order, every
stdout byte the process wrote (tty=false demultiplexing; stderr likewise);
container-backed `Container.Wait` offers no such guarantee (see the
counterexample) and performs no exit-code fetch at all. -/
theorem C1_exec_wait_after_completion (output : List Frame) (withInput : Bool)
    (s : ExecPumpState) (h : ExecReach (execInit output withInput) s) :
    ((s.waiter = .selected ∨ s.waiter = .returned) → s.allDone = true) ∧
    (s.waiter = .returned →
      s.outSink = stdoutOf output ∧ s.errSink = stderrOf output) := by
  have inv := execInv_reach h
  refine ⟨inv.wait_done, ?_⟩
  intro hw
  have ha := inv.wait_done (Or.inr hw)
  have hfin : s.outG = .finished := inv.done_iff.mp ha
  have hob := inv.eof_done (by simp [hfin])
  have hpend := inv.exited_pending hob.1
  have h2 := inv.out_account
  have h3 := inv.err_account
  rw [hob.2, hpend] at h2 h3
  constructor
  · simpa using h2
  · simpa using h3

/-- Claim C1 witness: a concrete complete exec session emitting the single
stdout byte 104; after Wait has returned, the sink holds exactly that byte. -/
theorem C1_exec_wait_after_completion_witness :
    ExecReach (execInit [Frame.mk false 104] false)
      ⟨[], [], true, [104], [], .finished, none, true, true, true, false,
        .returned⟩ ∧
    (⟨[], [], true, [104], [], .finished, none, true, true, true, false,
        .returned⟩ : ExecPumpState).outSink = stdoutOf [Frame.mk false 104] := by
  have hreach : ExecReach (execInit [Frame.mk false 104] false)
      ⟨[], [], true, [104], [], .finished, none, true, true, true, false,
        .returned⟩ :=
    @execRunTrace_sound (execInit [Frame.mk false 104] false)
      ⟨[], [], true, [104], [], .finished, none, true, true, true, false,
        .returned⟩
      [.emit, .procExit, .drainOut, .copyEOF, .recvInputDone, .closeConn,
        .closeAllDone, .selectDone, .waitInspect] (by decide)
  exact ⟨hreach,
    ((C1_exec_wait_after_completion [Frame.mk false 104] false _ hreach).2 rfl).1⟩

/-- Claim C2 counterexample: the container-variant pump spawned by Run has no
completion channel at all; its only one-shot channel — the (stdin-)`done`
channel — is, in a session without an input reader, already closed in the
initial (trivially reachable) state, while the output-drain goroutine is still
running and closure of the hijacked connection has not been initiated; so no
signal of the container pump closes strictly after both drains have stopped
and connection closure has been initiated. -/
theorem C2_counterexample :
    RunReach (runInit [Frame.mk false 104] false)
      (runInit [Frame.mk false 104] false) ∧
    (runInit [Frame.mk false 104] false).stdinDone = true ∧
    (runInit [Frame.mk false 104] false).outG = .copying ∧
    (runInit [Frame.mk false 104] false).connClosed = false :=
  ⟨Relation.ReflTransGen.refl, rfl, rfl, rfl⟩

/-- Claim C2 (amended): in both pump variants the output-drain goroutine waits
for the input-done signal before closing the hijacked connection (in every
reachable state a closed connection implies input-done), and when no input
reader is supplied input-done is immediately satisfied and no input goroutine
is spawned; in the exec variant the completion signal (`allDone`) closes at
most once (it is monotone) and only in states where the connection closure has
happened and both the output copy and any input goroutine have finished; the
container variant has no completion signal (see the counterexample). -/
theorem C2_pump_ordering :
    (∀ (output : List Frame) (withInput : Bool) (s : ExecPumpState),
      ExecReach (execInit output withInput) s →
      (s.connClosed = true → s.stdinDone = true) ∧
      (s.allDone = true → s.connClosed = true ∧ s.outG = .finished ∧
        s.stdinDone = true ∧ (s.inG = none ∨ s.inG = some .finished))) ∧
    (∀ s t : ExecPumpState, ExecStep s t → s.allDone = true → t.allDone = true) ∧
    (∀ (output : List Frame) (withInput : Bool) (s : RunPumpState),
      RunReach (runInit output withInput) s →
      (s.connClosed = true → s.stdinDone = true)) ∧
    (∀ output : List Frame,
      (execInit output false).inG = none ∧
      (execInit output false).stdinDone = true ∧
      (runInit output false).inG = none ∧
      (runInit output false).stdinDone = true) := by
  refine ⟨?_, ?_, ?_, fun output => ⟨rfl, rfl, rfl, rfl⟩⟩
  · intro output withInput s h
    have inv := execInv_reach h
    constructor
    · intro hc
      exact inv.conn_after_input (by
        rcases inv.conn_iff.mp hc with h1 | h1 <;> simp [h1])
    · intro ha
      have hfin : s.outG = .finished := inv.done_iff.mp ha
      refine ⟨inv.conn_iff.mpr (by simp [hfin]), hfin, ?_, ?_⟩
      · exact inv.conn_after_input (by simp [hfin])
      · exact inv.stdin_iff.mp (inv.conn_after_input (by simp [hfin]))
  · intro s t st ha
    cases st <;> simp_all
  · intro output withInput s h
    have inv := runInv_reach h
    intro hc
    exact inv.conn_after_input (Or.inr (inv.conn_iff.mp hc))

/-- Claim C2 witness: the amended statement at a concrete complete exec
session and a concrete complete container-run session: the completion state
has the connection closed, input-done set and the drains finished; the
container pump's connection closure state has input-done set; the no-input
initial states have no input goroutine. -/
theorem C2_pump_ordering_witness :
    ((⟨[], [], true, [104], [], .finished, none, true, true, true, false,
        .returned⟩ : ExecPumpState).connClosed = true ∧
      (⟨[], [], true, [104], [], .finished, none, true, true, true, false,
        .returned⟩ : ExecPumpState).stdinDone = true) ∧
    (⟨[], [], true, [104], [], .finished, none, true, true, .blocked⟩ :
      RunPumpState).stdinDone = true ∧
    (execInit [Frame.mk false 104] false).inG = none := by
  obtain ⟨h1, _, h3, h4⟩ := C2_pump_ordering
  have hreach : ExecReach (execInit [Frame.mk false 104] false)
      ⟨[], [], true, [104], [], .finished, none, true, true, true, false,
        .returned⟩ :=
    @execRunTrace_sound (execInit [Frame.mk false 104] false)
      ⟨[], [], true, [104], [], .finished, none, true, true, true, false,
        .returned⟩
      [.emit, .procExit, .drainOut, .copyEOF, .recvInputDone, .closeConn,
        .closeAllDone, .selectDone, .waitInspect] (by decide)
  have hrreach : RunReach (runInit [Frame.mk false 104] false)
      ⟨[], [], true, [104], [], .finished, none, true, true, .blocked⟩ := by
    exact @runRunTrace_sound (runInit [Frame.mk false 104] false)
      ⟨[], [], true, [104], [], .finished, none, true, true, .blocked⟩
      [.emit, .procExit, .drainOut, .copyEOF, .recvInputDone, .closeConn]
      (by decide)
  obtain ⟨hc, _, hs, _⟩ := (h1 [Frame.mk false 104] false _ hreach).2 rfl
  exact ⟨⟨hc, hs⟩,
    h3 [Frame.mk false 104] false _ hrreach rfl,
    (h4 [Frame.mk false 104]).1⟩

end Morbyd
